import Mathlib

/-!
Formal model of the continuous model-lifecycle subsystem of the
anti-judol backend: validation feedback (`validation_service.py`),
retraining / deploy / rollback (`retraining_service.py`) and the
prediction core (`prediction_service.py`).

Timestamps are modelled as integer seconds, probabilities and
confidences as rationals.  Database tables are lists of rows and each
service call is a pure function from state to state; a raised service
exception is an `Except.error` value.
-/

namespace AntiJudol

/-- A row of the `scan_results` table: the prediction being validated.
`comment_text` is nullable in the schema, hence `Option`. -/
structure ScanResult where
  id : Nat
  comment_text : Option String
  is_gambling : Bool
  confidence : Rat
deriving Repr, DecidableEq

/-- A row of the `validation_feedback` table (models/validation.py). -/
structure ValidationFeedback where
  id : Nat
  scan_result_id : Nat
  user_id : Nat
  comment_text : String
  original_prediction : Bool
  original_confidence : Rat
  corrected_label : Bool
  is_correction : Bool
  validated_at : Int
  used_in_training : Bool
  model_version_id : Option Nat
deriving Repr, DecidableEq

/-- Database state seen by the validation service: the scan-result and
feedback tables, plus a fresh-id counter standing in for UUID
generation. -/
structure VState where
  scans : List ScanResult
  feedbacks : List ValidationFeedback
  next_id : Nat
deriving Repr, DecidableEq

/-- Exceptions raised by `ValidationService`. -/
inductive VErr where
  | scanResultNotFound
  | inputError
  | notFound
  | windowExpired
deriving Repr, DecidableEq

/-- `UNDO_WINDOW_SECONDS = 5` in validation_service.py. -/
def UNDO_WINDOW_SECONDS : Int := 5

/-- The scan-result lookup at the top of `submit_validation`. -/
def findScan (s : VState) (sid : Nat) : Option ScanResult :=
  s.scans.find? (fun r => r.id == sid)

/-- The existing-feedback lookup of `submit_validation` (unique by the
composite index on `(scan_result_id, user_id)`). -/
def findFeedback (s : VState) (sid uid : Nat) : Option ValidationFeedback :=
  s.feedbacks.find? (fun f => f.scan_result_id == sid && f.user_id == uid)

/-- `ValidationService.submit_validation`: fetch the scan result,
determine the final label (`is_correct` confirms the prediction,
otherwise `corrected_label` is required), then update the existing
feedback row in place or insert a fresh one.  `now` is the wall-clock
time used for `validated_at`. -/
def submit_validation (s : VState) (now : Int) (sid uid : Nat)
    (is_correct : Bool) (corrected_label : Option Bool) :
    Except VErr (VState × ValidationFeedback) :=
  match findScan s sid with
  | none => .error .scanResultNotFound
  | some scan =>
    match (match is_correct, corrected_label with
           | true, _ => some (scan.is_gambling, false)
           | false, none => none
           | false, some l => some (l, true)) with
    | none => .error .inputError
    | some (final_label, isc) =>
      match findFeedback s sid uid with
      | some existing =>
        .ok ({ s with feedbacks :=
                 s.feedbacks.map (fun g =>
                   if g.id == existing.id then
                     { existing with
                       corrected_label := final_label
                       is_correction := isc
                       validated_at := now
                       used_in_training := false }
                   else g) },
             { existing with
               corrected_label := final_label
               is_correction := isc
               validated_at := now
               used_in_training := false })
      | none =>
        .ok ({ s with
               feedbacks := s.feedbacks ++
                 [{ id := s.next_id
                    scan_result_id := sid
                    user_id := uid
                    comment_text := scan.comment_text.getD ""
                    original_prediction := scan.is_gambling
                    original_confidence := scan.confidence
                    corrected_label := final_label
                    is_correction := isc
                    validated_at := now
                    used_in_training := false
                    model_version_id := none }]
               next_id := s.next_id + 1 },
             { id := s.next_id
               scan_result_id := sid
               user_id := uid
               comment_text := scan.comment_text.getD ""
               original_prediction := scan.is_gambling
               original_confidence := scan.confidence
               corrected_label := final_label
               is_correction := isc
               validated_at := now
               used_in_training := false
               model_version_id := none })

/-- `ValidationService._can_undo`: elapsed seconds at call time must
not exceed the undo window. -/
def can_undo (now validated_at : Int) : Bool :=
  decide (now - validated_at ≤ UNDO_WINDOW_SECONDS)

/-- `ValidationService.undo_validation`: fetch the feedback by id and
owner, fail `notFound` when absent, fail `windowExpired` outside the
window, otherwise delete the row.  The second component is the
database state after the call (an exception leaves it untouched,
since the only mutation is the delete on the success path). -/
def undo_validation (s : VState) (now : Int) (vid uid : Nat) :
    Except VErr Unit × VState :=
  match s.feedbacks.find? (fun f => f.id == vid && f.user_id == uid) with
  | none => (.error .notFound, s)
  | some v =>
    if can_undo now v.validated_at then
      (.ok (), { s with feedbacks := s.feedbacks.filter (fun g => g.id != v.id) })
    else
      (.error .windowExpired, s)

/-! ## Retraining service (`retraining_service.py`) -/

/-- A row of the `model_versions` table (models/model_version.py). -/
structure ModelVersionRow where
  id : Nat
  version : String
  file_path : String
  training_samples : Nat
  validation_samples : Nat
  accuracy : Option Rat
  precision_score : Option Rat
  recall_score : Option Rat
  f1_score : Option Rat
  is_active : Bool
  activated_at : Option Int
  deactivated_at : Option Int
deriving Repr, DecidableEq

/-- The `ModelMetrics` container of retraining_service.py.  The metric
values computed by scikit-learn are carried abstractly as rationals. -/
structure ModelMetrics where
  accuracy : Rat
  precision : Rat
  recall_score : Rat
  f1 : Rat
  training_samples : Nat
  validation_samples : Nat
deriving Repr, DecidableEq

/-- State seen by `RetrainingService`: the model-version and feedback
tables, the set of artifact files present on disk, and a fresh-id
counter standing in for UUID generation. -/
structure RState where
  versions : List ModelVersionRow
  feedbacks : List ValidationFeedback
  files : List String
  next_version_id : Nat
deriving Repr, DecidableEq

/-- Exceptions raised by `RetrainingService` (RetrainingError and its
subclasses, plus a database error for a failed commit / UPDATE). -/
inductive RErr where
  | notFound
  | deploymentError
  | insufficientData
  | dbError
deriving Repr, DecidableEq

/-- The failure points of `deploy_model` after entry: the artifact
write (`joblib.dump`), the commit closing the registry transaction
(deactivate-old + insert-new), and the second transaction marking
feedback as used.  `none` models the run with no failure. -/
inductive DeployStep where
  | artifactWrite
  | commitRegistry
  | markFeedback
deriving Repr, DecidableEq

/-- The bulk UPDATE `set is_active=false, deactivated_at=now where
is_active` used by both `deploy_model` and `rollback_model`. -/
def deactivateActive (now : Int) (vs : List ModelVersionRow) : List ModelVersionRow :=
  vs.map (fun v =>
    if v.is_active then { v with is_active := false, deactivated_at := some now } else v)

/-- The bulk UPDATE `set used_in_training=true, model_version_id=mvid
where used_in_training=false` at the end of `deploy_model`. -/
def markUnusedFeedback (mvid : Nat) (fs : List ValidationFeedback) : List ValidationFeedback :=
  fs.map (fun f =>
    if f.used_in_training then f
    else { f with used_in_training := true, model_version_id := some mvid })

/-- The fresh `ModelVersion` row inserted by `deploy_model`: created
active, with `activated_at = now` and the metrics recorded. -/
def newVersionRow (s : RState) (now : Int) (version path : String)
    (m : ModelMetrics) : ModelVersionRow :=
  { id := s.next_version_id
    version := version
    file_path := path
    training_samples := m.training_samples
    validation_samples := m.validation_samples
    accuracy := some m.accuracy
    precision_score := some m.precision
    recall_score := some m.recall_score
    f1_score := some m.f1
    is_active := true
    activated_at := some now
    deactivated_at := none }

/-- `RetrainingService.deploy_model`.  The source performs, in order:
the artifact write (`joblib.dump`), one transaction that deactivates
the active version and inserts the new active row (committed at the
first `db.commit()`), and a second transaction that marks unused
feedback as used (committed at the second `db.commit()`).  `failAt`
injects a failure at each point; the returned state is the durable
state after the call. -/
def deploy_model (s : RState) (now : Int) (version path : String)
    (m : ModelMetrics) (failAt : Option DeployStep) :
    Except RErr ModelVersionRow × RState :=
  if failAt = some DeployStep.artifactWrite then
    (.error .deploymentError, s)
  else if failAt = some DeployStep.commitRegistry then
    (.error .dbError, { s with files := path :: s.files })
  else if failAt = some DeployStep.markFeedback then
    (.error .dbError,
     { s with
       files := path :: s.files
       versions := deactivateActive now s.versions ++ [newVersionRow s now version path m]
       next_version_id := s.next_version_id + 1 })
  else
    (.ok (newVersionRow s now version path m),
     { s with
       files := path :: s.files
       versions := deactivateActive now s.versions ++ [newVersionRow s now version path m]
       next_version_id := s.next_version_id + 1
       feedbacks := markUnusedFeedback s.next_version_id s.feedbacks })

/-- `RetrainingService.rollback_model`: fetch the target version, fail
when absent or when its artifact file is missing, otherwise deactivate
the active version and reactivate the target (clearing
`deactivated_at`) in one transaction.  Feedback rows are never
touched. -/
def rollback_model (s : RState) (now : Int) (vid : Nat) :
    Except RErr ModelVersionRow × RState :=
  match s.versions.find? (fun v => v.id == vid) with
  | none => (.error .notFound, s)
  | some target =>
    if s.files.contains target.file_path then
      (.ok { target with is_active := true, activated_at := some now, deactivated_at := none },
       { s with versions :=
           (deactivateActive now s.versions).map (fun v =>
             if v.id == vid then
               { v with is_active := true, activated_at := some now, deactivated_at := none }
             else v) })
    else
      (.error .notFound, s)

/-! ## Training-data assembly and the retraining trigger -/

/-- One row of the assembled training DataFrame: comment text and
binary label. -/
structure DataRow where
  comment : String
  label : Nat
deriving Repr, DecidableEq

/-- The conversion of one feedback row performed by
`get_training_data`: `label = 1 if corrected_label else 0`. -/
def fbToRow (f : ValidationFeedback) : DataRow :=
  { comment := f.comment_text, label := if f.corrected_label then 1 else 0 }

/-- `DataFrame.drop_duplicates(subset=["comment"], keep="last")`: keep
each row whose comment does not occur again later, preserving order. -/
def dropDupKeepLast : List DataRow → List DataRow
  | [] => []
  | r :: rs =>
    if rs.any (fun t => t.comment == r.comment) then dropDupKeepLast rs
    else r :: dropDupKeepLast rs

/-- `RetrainingService.get_training_data`: concatenate the base corpus
with all feedback rows (used and unused) when there is any feedback,
then deduplicate by comment text keeping the last occurrence. -/
def get_training_data (base : List DataRow) (fbs : List ValidationFeedback) : List DataRow :=
  if (fbs.map fbToRow).isEmpty then dropDupKeepLast base
  else dropDupKeepLast (base ++ fbs.map fbToRow)

/-- `settings.min_training_samples` (config.py default, also the
`getattr` fallback in `trigger_retraining`). -/
def MIN_TRAINING_SAMPLES : Nat := 100

/-- The work steps performed by a training run, used to show what has
and has not started when an error is raised. -/
inductive TrainStep where
  | splitData
  | fitModel
  | evaluateModel
  | deployStep
deriving Repr, DecidableEq

/-- `RetrainingService.train_and_evaluate`: split the dataset, fit the
pipeline, predict on the held-out split and compute metrics.  The
scikit-learn numerics are abstracted by `evalFn`; `validation_count`
is `get_unused_validation_count()`.  The function performs no
minimum-size check: the trace always contains the fit step and the
result is never `insufficientData`. -/
def train_and_evaluate (evalFn : List DataRow → Rat × Rat × Rat × Rat)
    (data : List DataRow) (validation_count : Nat) :
    List TrainStep × Except RErr ModelMetrics :=
  ([TrainStep.splitData, TrainStep.fitModel, TrainStep.evaluateModel],
   .ok { accuracy := (evalFn data).1
         precision := (evalFn data).2.1
         recall_score := (evalFn data).2.2.1
         f1 := (evalFn data).2.2.2
         training_samples := data.length
         validation_samples := validation_count })

/-- `RetrainingService.trigger_retraining`: assemble the training data,
check the minimum-sample floor BEFORE any training work, then train,
evaluate and deploy.  The first component is the trace of training
steps actually performed. -/
def trigger_retraining (evalFn : List DataRow → Rat × Rat × Rat × Rat)
    (s : RState) (now : Int) (base : List DataRow) (version path : String)
    (failAt : Option DeployStep) :
    List TrainStep × (Except RErr (ModelVersionRow × ModelMetrics) × RState) :=
  if (get_training_data base s.feedbacks).length < MIN_TRAINING_SAMPLES then
    ([], (.error .insufficientData, s))
  else
    match train_and_evaluate evalFn (get_training_data base s.feedbacks)
        ((s.feedbacks.filter (fun f => !f.used_in_training)).length) with
    | (tr, .error e) => (tr, (.error e, s))
    | (tr, .ok m) =>
      match deploy_model s now version path m failAt with
      | (.ok mv, s2) => (tr ++ [TrainStep.deployStep], (.ok (mv, m), s2))
      | (.error e, s2) => (tr ++ [TrainStep.deployStep], (.error e, s2))

/-! ## Prediction service (`prediction_service.py`) -/

/-- The class-level state of `PredictionService`: the identity of the
served model object (`_model`), the remembered path (`_model_path`)
and the reload flag (`_is_reloading`). -/
structure PState where
  model : Option Nat
  model_path : Option String
  is_reloading : Bool
deriving Repr, DecidableEq

/-- What the filesystem / `joblib.load` does for a path: the file is
missing, loading raises, or loading yields a new model object `m`. -/
inductive LoadOutcome where
  | missing
  | loadError
  | loaded (m : Nat)
deriving Repr, DecidableEq

/-- The default `backend/ml/model_pipeline.joblib` path. -/
def DEFAULT_MODEL_PATH : String := "backend/ml/model_pipeline.joblib"

/-- The path-resolution step of `reload_model`: the argument if given,
else the remembered `_model_path`, else the default. -/
def resolveReloadPath (s : PState) (mp : Option String) : String :=
  match mp with
  | some p => p
  | none =>
    match s.model_path with
    | some p => p
    | none => DEFAULT_MODEL_PATH

/-- `PredictionService.reload_model` (hot-swap).  If a reload is
already in progress the call returns `false` at once leaving the state
alone.  Otherwise the flag is set, the path resolved and the new model
loaded; a missing file or a load error returns `false` with the
`finally` block clearing the flag (net effect: the state is exactly
what it was).  Only on success is the shared reference replaced. -/
def reload_model (fs : String → LoadOutcome) (s : PState) (mp : Option String) :
    Bool × PState :=
  if s.is_reloading then
    (false, s)
  else
    match fs (resolveReloadPath s mp) with
    | .missing => (false, s)
    | .loadError => (false, s)
    | .loaded m =>
      (true, { model := some m
               model_path := some (resolveReloadPath s mp)
               is_reloading := false })

/-- `n` successive `reload_model` calls with the same inputs. -/
def reload_iter (fs : String → LoadOutcome) (mp : Option String) :
    Nat → PState → PState
  | 0, s => s
  | n + 1, s => reload_iter fs mp n (reload_model fs s mp).2

/-- The loaded classifier as used by `predict_single` /
`predict_batch`: its `predict` and `predict_proba` outputs per text.
`predict_proba` returns the probabilities of the two classes, possibly
slightly outside `[0, 1]`. -/
structure Classifier where
  predict : String → Bool
  predict_proba : String → Rat × Rat

/-- One element of the result of `predict_single` / `predict_batch`. -/
structure PredictOut where
  text : String
  is_gambling : Bool
  confidence : Rat
deriving Repr, DecidableEq

/-- `max(0.0, min(1.0, max(probabilities)))` from the source. -/
def clampedConfidence (p : Rat × Rat) : Rat :=
  max 0 (min 1 (max p.1 p.2))

/-- `PredictionService.predict_single`. -/
def predict_single (c : Classifier) (text : String) : PredictOut :=
  { text := text
    is_gambling := c.predict text
    confidence := clampedConfidence (c.predict_proba text) }

/-- `PredictionService.predict_batch`: empty input short-circuits to
`[]`; otherwise `model.predict` and `model.predict_proba` are run on
the whole list and the three lists are zipped row by row. -/
def predict_batch (c : Classifier) (texts : List String) : List PredictOut :=
  if texts.isEmpty then []
  else
    (texts.zip ((texts.map c.predict).zip (texts.map c.predict_proba))).map
      (fun tp =>
        { text := tp.1
          is_gambling := tp.2.1
          confidence := clampedConfidence tp.2.2 })

/-! ## Concrete states used to instantiate the theorems -/

/-- A scan result predicted gambling with full confidence. -/
def exScan : ScanResult :=
  { id := 0, comment_text := some "main di situs gacor", is_gambling := true, confidence := 1 }

/-- A validation database holding only `exScan`. -/
def exVState : VState := { scans := [exScan], feedbacks := [], next_id := 0 }

/-- The record stored by submitting a correction `corrected_label =
true` against `exScan` (whose prediction is already `true`). -/
def exCorrectionFb : ValidationFeedback :=
  { id := 0, scan_result_id := 0, user_id := 7
    comment_text := "main di situs gacor"
    original_prediction := true, original_confidence := 1
    corrected_label := true, is_correction := true
    validated_at := 3, used_in_training := false, model_version_id := none }

/-- An existing feedback row for `(scan 0, user 7)` whose snapshot
fields differ from the scan row, to exhibit the update frame. -/
def exExistingFb : ValidationFeedback :=
  { id := 5, scan_result_id := 0, user_id := 7
    comment_text := "halo bang"
    original_prediction := true, original_confidence := 1
    corrected_label := true, is_correction := false
    validated_at := 0, used_in_training := true, model_version_id := some 3 }

/-- A validation database where user 7 has already validated scan 0. -/
def exVState2 : VState := { scans := [exScan], feedbacks := [exExistingFb], next_id := 6 }

/-- A feedback row validated at t = 100, for the undo-window cases. -/
def exUndoFb : ValidationFeedback :=
  { id := 1, scan_result_id := 2, user_id := 4
    comment_text := "wd lancar"
    original_prediction := false, original_confidence := 1
    corrected_label := true, is_correction := true
    validated_at := 100, used_in_training := false, model_version_id := none }

/-- A validation database holding only `exUndoFb`. -/
def exVState3 : VState := { scans := [], feedbacks := [exUndoFb], next_id := 9 }

/-- An unused feedback row in the registry state. -/
def exUnusedFb : ValidationFeedback :=
  { id := 0, scan_result_id := 1, user_id := 2
    comment_text := "gacor parah"
    original_prediction := false, original_confidence := 1
    corrected_label := true, is_correction := true
    validated_at := 0, used_in_training := false, model_version_id := none }

/-- The currently active model version. -/
def exActiveVersion : ModelVersionRow :=
  { id := 0, version := "v0", file_path := "models/model_v0.joblib"
    training_samples := 50, validation_samples := 0
    accuracy := some 1, precision_score := some 1
    recall_score := some 1, f1_score := some 1
    is_active := true, activated_at := some 0, deactivated_at := none }

/-- A deactivated older model version, the rollback target. -/
def exOldVersion : ModelVersionRow :=
  { id := 1, version := "v1", file_path := "models/model_v1.joblib"
    training_samples := 40, validation_samples := 0
    accuracy := some 1, precision_score := some 1
    recall_score := some 1, f1_score := some 1
    is_active := false, activated_at := some 1, deactivated_at := some 2 }

/-- A registry state with one active version and one unused feedback. -/
def exRState : RState :=
  { versions := [exActiveVersion], feedbacks := [exUnusedFb]
    files := ["models/model_v0.joblib"], next_version_id := 1 }

/-- A registry state with an active and an inactive version. -/
def exRState2 : RState :=
  { versions := [exActiveVersion, exOldVersion], feedbacks := [exUnusedFb]
    files := ["models/model_v0.joblib", "models/model_v1.joblib"], next_version_id := 2 }

/-- Metrics of the candidate model. -/
def exMetrics : ModelMetrics :=
  { accuracy := 1, precision := 1, recall_score := 1, f1 := 1
    training_samples := 120, validation_samples := 1 }

/-- A filesystem where only `models/new.joblib` loads, as object 42. -/
def exFs : String → LoadOutcome :=
  fun p => if p == "models/new.joblib" then .loaded 42 else .missing

/-- A filesystem where every load raises. -/
def exFsRaise : String → LoadOutcome := fun _ => .loadError

/-- A prediction core currently serving model object 7. -/
def exPState : PState :=
  { model := some 7, model_path := some "backend/ml/model_pipeline.joblib"
    is_reloading := false }

/-- A classifier whose probability output steps outside `[0, 1]` on
the text "a". -/
def exClassifier : Classifier :=
  { predict := fun _ => true
    predict_proba := fun t => if t == "a" then (2, -1) else (0, 1) }

/-- A one-row dataset, far below the minimum-sample floor. -/
def exTinyData : List DataRow := [{ comment := "daftar situs", label := 1 }]

/-- The abstract evaluation returning perfect scores. -/
def exEvalFn : List DataRow → Rat × Rat × Rat × Rat := fun _ => (1, 1, 1, 1)

/-- The metrics `train_and_evaluate` produces on `exTinyData`. -/
def exTinyMetrics : ModelMetrics :=
  { accuracy := 1, precision := 1, recall_score := 1, f1 := 1
    training_samples := 1, validation_samples := 0 }

/-- A two-row base corpus; the comment "gacor parah" also occurs in
`exUnusedFb` under the other label. -/
def exBase : List DataRow :=
  [{ comment := "halo bang", label := 0 }, { comment := "gacor parah", label := 0 }]

/-! ## Helper lemmas -/

theorem zip_map_map_eq {α β γ δ : Type} (h : α × β × γ → δ) (f : α → β) (g : α → γ) :
    ∀ l : List α, (l.zip ((l.map f).zip (l.map g))).map h = l.map (fun x => h (x, f x, g x))
  | [] => rfl
  | _ :: t => by
    simp only [List.map_cons, List.zip_cons_cons]
    exact congrArg _ (zip_map_map_eq h f g t)

theorem predict_batch_eq_map (c : Classifier) (texts : List String) :
    predict_batch c texts = texts.map (predict_single c) := by
  cases texts with
  | nil => rfl
  | cons a t =>
    simp only [predict_batch, List.isEmpty_cons, Bool.false_eq_true, if_false]
    exact zip_map_map_eq _ _ _ (a :: t)

theorem clampedConfidence_nonneg (p : Rat × Rat) : 0 ≤ clampedConfidence p :=
  le_max_left 0 _

theorem clampedConfidence_le_one (p : Rat × Rat) : clampedConfidence p ≤ 1 :=
  max_le zero_le_one (min_le_left 1 _)

/-! ## Claim theorems -/

/-- C8: for every input text and every list of input texts (including
the empty list), the confidence returned by `predict_single` and by
each element of `predict_batch` lies in `[0, 1]` inclusive — clamped
even when the model's probability output lies outside that range —
and `predict_batch` returns exactly one result per input text, in the
input order (it equals the element-wise `predict_single` map). -/
theorem c8_confidence_clamped (c : Classifier) (text : String) (texts : List String) :
    (0 ≤ (predict_single c text).confidence ∧ (predict_single c text).confidence ≤ 1) ∧
    predict_batch c texts = texts.map (predict_single c) ∧
    (predict_batch c texts).length = texts.length ∧
    (∀ r ∈ predict_batch c texts, 0 ≤ r.confidence ∧ r.confidence ≤ 1) ∧
    (∀ i : Fin texts.length,
       (predict_batch c texts)[i.val]? = some (predict_single c (texts.get i))) := by
  refine ⟨⟨clampedConfidence_nonneg _, clampedConfidence_le_one _⟩,
          predict_batch_eq_map c texts, ?_, ?_, ?_⟩
  · rw [predict_batch_eq_map]
    exact List.length_map _ _
  · intro r hr
    rw [predict_batch_eq_map] at hr
    obtain ⟨x, _, rfl⟩ := List.mem_map.mp hr
    exact ⟨clampedConfidence_nonneg _, clampedConfidence_le_one _⟩
  · intro i
    rw [predict_batch_eq_map, List.getElem?_map, List.getElem?_eq_getElem i.isLt]
    simp [List.get_eq_getElem]

/-- Witness for C8 at a concrete classifier whose probability output
is `(2, -1)` on the text "a": the result row is in the batch output
and its confidence is clamped into `[0, 1]`. -/
theorem c8_witness :
    ({ text := "a", is_gambling := true, confidence := 1 } : PredictOut) ∈
        predict_batch exClassifier ["a", "b"] ∧
    (0 ≤ ({ text := "a", is_gambling := true, confidence := 1 } : PredictOut).confidence ∧
     ({ text := "a", is_gambling := true, confidence := 1 } : PredictOut).confidence ≤ 1) := by
  refine ⟨by decide, ?_⟩
  exact (c8_confidence_clamped exClassifier "a" ["a", "b"]).2.2.2.1 _ (by decide)

/-- C7: `reload_model` returns `false` with no side effect — the
served model reference and the whole state are exactly what they were
before the call, across any number of repeated failed attempts — in
each of the three cases: a swap is already in progress, the path does
not exist, or loading the new model throws; it returns `true` only
when the fully loaded new model has replaced the shared reference. -/
theorem c7_reload_failure_no_side_effects (fs : String → LoadOutcome)
    (s : PState) (mp : Option String) :
    (s.is_reloading = true → reload_model fs s mp = (false, s)) ∧
    (s.is_reloading = false → fs (resolveReloadPath s mp) = .missing →
       reload_model fs s mp = (false, s)) ∧
    (s.is_reloading = false → fs (resolveReloadPath s mp) = .loadError →
       reload_model fs s mp = (false, s)) ∧
    ((reload_model fs s mp).1 = false → (reload_model fs s mp).2 = s) ∧
    ((reload_model fs s mp).1 = false → ∀ n, reload_iter fs mp n s = s) ∧
    ((reload_model fs s mp).1 = true →
       ∃ m, fs (resolveReloadPath s mp) = .loaded m ∧ s.is_reloading = false ∧
         (reload_model fs s mp).2.model = some m) := by
  have hsnd : (reload_model fs s mp).1 = false → (reload_model fs s mp).2 = s := by
    unfold reload_model
    cases hr : s.is_reloading with
    | true => intro _; rfl
    | false =>
      simp only [Bool.false_eq_true, if_false]
      cases hfs : fs (resolveReloadPath s mp) with
      | missing => intro _; rfl
      | loadError => intro _; rfl
      | loaded m => intro hcontra; simp at hcontra
  refine ⟨?_, ?_, ?_, hsnd, ?_, ?_⟩
  · intro hr; unfold reload_model; rw [hr]; rfl
  · intro hr hfs; unfold reload_model; rw [hr, hfs]; rfl
  · intro hr hfs; unfold reload_model; rw [hr, hfs]; rfl
  · intro hfail n
    induction n with
    | zero => rfl
    | succ k ih =>
      show reload_iter fs mp k (reload_model fs s mp).2 = s
      rw [hsnd hfail]
      exact ih
  · intro htrue
    unfold reload_model at htrue ⊢
    cases hr : s.is_reloading with
    | true => rw [hr] at htrue; simp at htrue
    | false =>
      rw [hr] at htrue
      simp only [Bool.false_eq_true, if_false] at htrue ⊢
      cases hfs : fs (resolveReloadPath s mp) with
      | missing => rw [hfs] at htrue; simp at htrue
      | loadError => rw [hfs] at htrue; simp at htrue
      | loaded m => exact ⟨m, rfl, trivial, rfl⟩

/-- Witness for C7: a missing path, a raising loader, and an
in-progress swap all return `false` leaving `exPState` intact, and
after two repeated failed attempts the state is still intact; a
successful swap installs model object 42. -/
theorem c7_witness :
    reload_model exFs exPState (some "nope.joblib") = (false, exPState) ∧
    reload_model exFsRaise exPState none = (false, exPState) ∧
    reload_model exFs { exPState with is_reloading := true } none =
      (false, { exPState with is_reloading := true }) ∧
    reload_iter exFs (some "nope.joblib") 2 exPState = exPState ∧
    (∃ m, exFs (resolveReloadPath exPState (some "models/new.joblib")) = .loaded m ∧
       exPState.is_reloading = false ∧
       (reload_model exFs exPState (some "models/new.joblib")).2.model = some m) := by
  refine ⟨?_, ?_, ?_, ?_, ?_⟩
  · exact (c7_reload_failure_no_side_effects exFs exPState
      (some "nope.joblib")).2.1 rfl (by decide)
  · exact (c7_reload_failure_no_side_effects exFsRaise exPState none).2.2.1 rfl rfl
  · exact (c7_reload_failure_no_side_effects exFs
      { exPState with is_reloading := true } none).1 rfl
  · exact (c7_reload_failure_no_side_effects exFs exPState
      (some "nope.joblib")).2.2.2.2.1 (by decide) 2
  · exact (c7_reload_failure_no_side_effects exFs exPState
      (some "models/new.joblib")).2.2.2.2.2 (by decide)

theorem find?_feedback_unique {l : List ValidationFeedback} {vid uid : Nat}
    (hids : (l.map (fun f => f.id)).Nodup) {f : ValidationFeedback}
    (hf : f ∈ l) (hid : f.id = vid) (huid : f.user_id = uid) :
    l.find? (fun g => g.id == vid && g.user_id == uid) = some f := by
  induction l with
  | nil => cases hf
  | cons a t ih =>
    simp only [List.map_cons, List.nodup_cons] at hids
    by_cases hpa : (a.id == vid && a.user_id == uid) = true
    · rw [List.find?_cons, hpa]
      rcases List.mem_cons.mp hf with rfl | hmem
      · rfl
      · exfalso
        simp only [Bool.and_eq_true, beq_iff_eq] at hpa
        apply hids.1
        rw [hpa.1, ← hid]
        exact List.mem_map.mpr ⟨f, hmem, rfl⟩
    · have hpa2 : (a.id == vid && a.user_id == uid) = false := by
        simpa using hpa
      rw [List.find?_cons, hpa2]
      rcases List.mem_cons.mp hf with rfl | hmem
      · exact absurd (by simp [hid, huid]) hpa
      · exact ih hids.2 hmem

/-- C5: for every feedback table with distinct ids, `undo_validation`
deletes the record and succeeds exactly when `now - validated_at ≤ 5`
seconds (success at exactly 5s); beyond 5s it fails `windowExpired`
leaving the record in place, and it fails `notFound` when no record
with that id belongs to the calling user. -/
theorem c5_undo_window (s : VState) (now : Int) (vid uid : Nat)
    (hids : (s.feedbacks.map (fun f => f.id)).Nodup) :
    ((¬ ∃ f ∈ s.feedbacks, f.id = vid ∧ f.user_id = uid) →
       undo_validation s now vid uid = (.error .notFound, s)) ∧
    (∀ f ∈ s.feedbacks, f.id = vid → f.user_id = uid →
       (now - f.validated_at ≤ UNDO_WINDOW_SECONDS →
          undo_validation s now vid uid =
            (.ok (), { s with feedbacks := s.feedbacks.filter (fun g => g.id != f.id) }) ∧
          f ∉ (undo_validation s now vid uid).2.feedbacks) ∧
       (UNDO_WINDOW_SECONDS < now - f.validated_at →
          undo_validation s now vid uid = (.error .windowExpired, s))) := by
  constructor
  · intro hno
    have hfind : s.feedbacks.find? (fun g => g.id == vid && g.user_id == uid) = none := by
      rw [List.find?_eq_none]
      intro x hx hpx
      simp only [Bool.and_eq_true, beq_iff_eq] at hpx
      exact hno ⟨x, hx, hpx.1, hpx.2⟩
    unfold undo_validation
    rw [hfind]
  · intro f hmem hid huid
    have hfind := find?_feedback_unique hids hmem hid huid
    constructor
    · intro hle
      have hcan : can_undo now f.validated_at = true := by
        unfold can_undo; exact decide_eq_true hle
      constructor
      · unfold undo_validation
        simp only [hfind]
        rw [hcan]
        rfl
      · unfold undo_validation
        simp only [hfind]
        rw [hcan]
        simp [List.mem_filter]
    · intro hgt
      have hcan : can_undo now f.validated_at = false := by
        unfold can_undo
        exact decide_eq_false (not_le.mpr hgt)
      unfold undo_validation
      simp only [hfind]
      rw [hcan]
      rfl

/-- Witness for C5 on `exVState3` (one feedback, `validated_at = 100`):
undo succeeds at `now = 105` (exactly 5s) deleting the record, fails
`windowExpired` at `now = 106`, and fails `notFound` for an id that
does not belong to the user. -/
theorem c5_witness :
    undo_validation exVState3 105 1 4 =
      (.ok (), { exVState3 with
                 feedbacks := exVState3.feedbacks.filter (fun g => g.id != exUndoFb.id) }) ∧
    exUndoFb ∉ (undo_validation exVState3 105 1 4).2.feedbacks ∧
    undo_validation exVState3 106 1 4 = (.error .windowExpired, exVState3) ∧
    undo_validation exVState3 105 8 4 = (.error .notFound, exVState3) := by
  have hbase := c5_undo_window exVState3 105 1 4 (by decide)
  have hin := hbase.2 exUndoFb (by decide) rfl rfl
  refine ⟨(hin.1 (by decide)).1, (hin.1 (by decide)).2, ?_, ?_⟩
  · exact ((c5_undo_window exVState3 106 1 4 (by decide)).2 exUndoFb
      (by decide) rfl rfl).2 (by decide)
  · exact (c5_undo_window exVState3 105 8 4 (by decide)).1 (by decide)

/-- C1 counterexample: submitting a correction whose corrected label
equals the scan's original prediction stores a record with
`is_correction = true` although `corrected_label = original_prediction`,
so the claimed invariant
`is_correction == (corrected_label != original_prediction)` fails on a
record produced by `submit_validation`. -/
theorem c1_is_correction_counterexample :
    submit_validation exVState 3 0 7 false (some true) =
      .ok ({ scans := [exScan], feedbacks := [exCorrectionFb], next_id := 1 },
           exCorrectionFb) ∧
    exCorrectionFb.is_correction = true ∧
    exCorrectionFb.corrected_label = exCorrectionFb.original_prediction ∧
    ¬ (exCorrectionFb.is_correction =
        (exCorrectionFb.corrected_label != exCorrectionFb.original_prediction)) := by
  exact ⟨rfl, rfl, rfl, by decide⟩

/-- C1 (amended): every record stored by `submit_validation` satisfies
`is_correction = not is_correct` — the flag records whether the user
disagreed, not whether the labels differ — and the claimed invariant
does hold for confirmations that create a fresh record (there
`corrected_label` is copied from the scan's prediction).  It fails
exactly when a correction resubmits the original label, as the
counterexample shows. -/
theorem c1_is_correction_amended (s : VState) (now : Int) (sid uid : Nat)
    (ic : Bool) (cl : Option Bool) (s2 : VState) (f : ValidationFeedback)
    (h : submit_validation s now sid uid ic cl = .ok (s2, f)) :
    f.is_correction = !ic ∧ f ∈ s2.feedbacks ∧
    (ic = true → findFeedback s sid uid = none →
       f.corrected_label = f.original_prediction ∧
       f.is_correction = (f.corrected_label != f.original_prediction)) := by
  unfold submit_validation at h
  cases hscan : findScan s sid with
  | none => rw [hscan] at h; cases h
  | some scan =>
    rw [hscan] at h
    cases ic with
    | false =>
      cases cl with
      | none => cases h
      | some l =>
        cases hex : findFeedback s sid uid with
        | some existing =>
          rw [hex] at h
          simp only [Except.ok.injEq, Prod.mk.injEq] at h
          obtain ⟨hs2, hf⟩ := h
          subst hs2; subst hf
          refine ⟨rfl, ?_, by intro hic; cases hic⟩
          exact List.mem_map.mpr
            ⟨existing, List.mem_of_find?_eq_some hex, by simp⟩
        | none =>
          rw [hex] at h
          simp only [Except.ok.injEq, Prod.mk.injEq] at h
          obtain ⟨hs2, hf⟩ := h
          subst hs2; subst hf
          refine ⟨rfl, ?_, by intro hic; cases hic⟩
          exact List.mem_append_right _ (List.mem_singleton.mpr rfl)
    | true =>
      cases hex : findFeedback s sid uid with
      | some existing =>
        rw [hex] at h
        simp only [Except.ok.injEq, Prod.mk.injEq] at h
        obtain ⟨hs2, hf⟩ := h
        subst hs2; subst hf
        refine ⟨rfl, ?_, fun _ hnone => by cases hnone⟩
        exact List.mem_map.mpr
          ⟨existing, List.mem_of_find?_eq_some hex, by simp⟩
      | none =>
        rw [hex] at h
        simp only [Except.ok.injEq, Prod.mk.injEq] at h
        obtain ⟨hs2, hf⟩ := h
        subst hs2; subst hf
        refine ⟨rfl, ?_, fun _ _ => ⟨rfl, by simp⟩⟩
        exact List.mem_append_right _ (List.mem_singleton.mpr rfl)

/-- Witness for C1 (amended): a fresh confirmation on `exVState`
stores `is_correction = false` and satisfies the derived invariant. -/
theorem c1_witness :
    ∃ s2 f, submit_validation exVState 3 0 7 true none = .ok (s2, f) ∧
      f.is_correction = !true ∧ f ∈ s2.feedbacks ∧
      f.corrected_label = f.original_prediction := by
  have h := c1_is_correction_amended exVState 3 0 7 true none _ _ rfl
  exact ⟨_, _, rfl, h.1, h.2.1, (h.2.2 rfl rfl).1⟩

/-- C10: when `submit_validation` updates an existing feedback record
for the same `(scan_result_id, user_id)` pair, the snapshot fields
`comment_text`, `original_prediction`, `original_confidence` — and the
identity and training-link fields — are unchanged from the first
submission; only `corrected_label`, `is_correction`, `validated_at`
and `used_in_training` are modified, and the rest of the table is
untouched. -/
theorem c10_submit_update_frame (s : VState) (now : Int) (sid uid : Nat)
    (ic : Bool) (cl : Option Bool) (e : ValidationFeedback)
    (s2 : VState) (f : ValidationFeedback)
    (he : findFeedback s sid uid = some e)
    (h : submit_validation s now sid uid ic cl = .ok (s2, f)) :
    f.comment_text = e.comment_text ∧
    f.original_prediction = e.original_prediction ∧
    f.original_confidence = e.original_confidence ∧
    f.id = e.id ∧ f.scan_result_id = e.scan_result_id ∧ f.user_id = e.user_id ∧
    f.model_version_id = e.model_version_id ∧
    f.validated_at = now ∧ f.used_in_training = false ∧
    s2.scans = s.scans ∧
    s2.feedbacks = s.feedbacks.map (fun g => if g.id == e.id then f else g) := by
  unfold submit_validation at h
  cases hscan : findScan s sid with
  | none => rw [hscan] at h; cases h
  | some scan =>
    rw [hscan] at h
    cases ic with
    | false =>
      cases cl with
      | none => cases h
      | some l =>
        rw [he] at h
        simp only [Except.ok.injEq, Prod.mk.injEq] at h
        obtain ⟨hs2, hf⟩ := h
        subst hs2; subst hf
        exact ⟨rfl, rfl, rfl, rfl, rfl, rfl, rfl, rfl, rfl, rfl, rfl⟩
    | true =>
      rw [he] at h
      simp only [Except.ok.injEq, Prod.mk.injEq] at h
      obtain ⟨hs2, hf⟩ := h
      subst hs2; subst hf
      exact ⟨rfl, rfl, rfl, rfl, rfl, rfl, rfl, rfl, rfl, rfl, rfl⟩

/-- Witness for C10: updating `exExistingFb` (user 7, scan 0) with a
correction keeps its snapshot fields and resets the training flag. -/
theorem c10_witness :
    ∃ s2 f, submit_validation exVState2 10 0 7 false (some false) = .ok (s2, f) ∧
      f.comment_text = exExistingFb.comment_text ∧
      f.original_prediction = exExistingFb.original_prediction ∧
      f.original_confidence = exExistingFb.original_confidence ∧
      f.model_version_id = exExistingFb.model_version_id ∧
      f.validated_at = 10 ∧ f.used_in_training = false := by
  have h := c10_submit_update_frame exVState2 10 0 7 false (some false)
    exExistingFb _ _ rfl rfl
  exact ⟨_, _, rfl, h.1, h.2.1, h.2.2.1, h.2.2.2.2.2.2.1,
    h.2.2.2.2.2.2.2.1, h.2.2.2.2.2.2.2.2.1⟩

theorem dropDupKeepLast_sublist : ∀ l : List DataRow, (dropDupKeepLast l).Sublist l
  | [] => List.Sublist.refl _
  | r :: rs => by
    unfold dropDupKeepLast
    by_cases h : (rs.any fun t => t.comment == r.comment) = true
    · rw [if_pos h]
      exact (dropDupKeepLast_sublist rs).cons r
    · rw [if_neg h]
      exact (dropDupKeepLast_sublist rs).cons₂ r

theorem mem_of_mem_dropDupKeepLast {l : List DataRow} {r : DataRow}
    (h : r ∈ dropDupKeepLast l) : r ∈ l :=
  (dropDupKeepLast_sublist l).subset h

theorem mem_of_getLast?_eq_some {α : Type} {l : List α} {a : α}
    (h : l.getLast? = some a) : a ∈ l := by
  obtain ⟨hne, rfl⟩ := List.mem_getLast?_eq_getLast (Option.mem_def.mpr h)
  exact List.getLast_mem hne

theorem comment_mem_dropDupKeepLast {c : String} :
    ∀ {l : List DataRow}, (∃ r ∈ l, r.comment = c) →
      ∃ r ∈ dropDupKeepLast l, r.comment = c := by
  intro l
  induction l with
  | nil => rintro ⟨r, hr, _⟩; cases hr
  | cons a t ih =>
    rintro ⟨r, hr, hrc⟩
    unfold dropDupKeepLast
    by_cases h : (t.any fun x => x.comment == a.comment) = true
    · rw [if_pos h]
      rcases List.mem_cons.mp hr with rfl | hmem
      · obtain ⟨x, hx, hxc⟩ := List.any_eq_true.mp h
        refine ih ⟨x, hx, ?_⟩
        rw [beq_iff_eq] at hxc
        rw [hxc, hrc]
      · exact ih ⟨r, hmem, hrc⟩
    · rw [if_neg h]
      rcases List.mem_cons.mp hr with rfl | hmem
      · exact ⟨r, List.mem_cons_self _ _, hrc⟩
      · obtain ⟨r2, hr2, hr2c⟩ := ih ⟨r, hmem, hrc⟩
        exact ⟨r2, List.mem_cons_of_mem _ hr2, hr2c⟩

theorem getLast?_filter_dropDupKeepLast :
    ∀ {l : List DataRow} {r : DataRow}, r ∈ dropDupKeepLast l →
      (l.filter (fun t => t.comment == r.comment)).getLast? = some r := by
  intro l
  induction l with
  | nil => intro r hr; cases hr
  | cons a t ih =>
    intro r hr
    unfold dropDupKeepLast at hr
    by_cases h : (t.any fun x => x.comment == a.comment) = true
    · rw [if_pos h] at hr
      have hlast := ih hr
      rw [List.filter_cons]
      by_cases hac : (a.comment == r.comment) = true
      · rw [if_pos hac]
        cases hft : t.filter (fun t2 => t2.comment == r.comment) with
        | nil => rw [hft] at hlast; cases hlast
        | cons b bs =>
          rw [hft] at hlast
          rw [List.getLast?_cons_cons]
          exact hlast
      · rw [if_neg hac]
        exact hlast
    · rw [if_neg h] at hr
      rcases List.mem_cons.mp hr with rfl | hmem
      · rw [List.filter_cons, if_pos (by simp)]
        have hft : t.filter (fun t2 => t2.comment == r.comment) = [] := by
          rw [List.filter_eq_nil_iff]
          intro x hx hxc
          exact h (List.any_eq_true.mpr ⟨x, hx, hxc⟩)
        rw [hft]
        rfl
      · have hlast := ih hmem
        rw [List.filter_cons]
        by_cases hac : (a.comment == r.comment) = true
        · exfalso
          apply h
          refine List.any_eq_true.mpr ⟨r, mem_of_mem_dropDupKeepLast hmem, ?_⟩
          rw [beq_iff_eq] at hac ⊢
          exact hac.symm
        · rw [if_neg hac]
          exact hlast

theorem comments_nodup_dropDupKeepLast : ∀ l : List DataRow,
    ((dropDupKeepLast l).map (fun r => r.comment)).Nodup
  | [] => List.nodup_nil
  | a :: t => by
    unfold dropDupKeepLast
    by_cases h : (t.any fun x => x.comment == a.comment) = true
    · rw [if_pos h]
      exact comments_nodup_dropDupKeepLast t
    · rw [if_neg h]
      simp only [List.map_cons, List.nodup_cons]
      refine ⟨?_, comments_nodup_dropDupKeepLast t⟩
      intro hmem
      obtain ⟨r, hr, hrc⟩ := List.mem_map.mp hmem
      apply h
      refine List.any_eq_true.mpr ⟨r, mem_of_mem_dropDupKeepLast hr, ?_⟩
      rw [beq_iff_eq]
      exact hrc

/-- C4: for every base corpus and every set of feedback rows, the
assembled training set equals the concatenation of the base corpus
followed by all feedback rows (label 1 iff `corrected_label`),
deduplicated by exact comment text keeping the last occurrence: the
result has pairwise-distinct comments, exactly the comments of the
concatenation survive (no unique comment text is lost), each kept row
is the last occurrence of its comment, and a comment that occurs among
the feedback is always represented by a feedback row (feedback label
overrides the base corpus). -/
theorem c4_training_data_union_dedup (base : List DataRow) (fbs : List ValidationFeedback) :
    get_training_data base fbs = dropDupKeepLast (base ++ fbs.map fbToRow) ∧
    ((get_training_data base fbs).map (fun r => r.comment)).Nodup ∧
    (∀ c : String,
       (∃ r ∈ base ++ fbs.map fbToRow, r.comment = c) ↔
       (∃ r ∈ get_training_data base fbs, r.comment = c)) ∧
    (∀ r ∈ get_training_data base fbs,
       ((base ++ fbs.map fbToRow).filter (fun t => t.comment == r.comment)).getLast? =
         some r) ∧
    (∀ r ∈ get_training_data base fbs,
       (∃ f ∈ fbs, f.comment_text = r.comment) → ∃ f ∈ fbs, fbToRow f = r) := by
  have heq : get_training_data base fbs = dropDupKeepLast (base ++ fbs.map fbToRow) := by
    unfold get_training_data
    cases hm : fbs.map fbToRow with
    | nil => simp
    | cons b bt => simp
  refine ⟨heq, ?_, ?_, ?_, ?_⟩
  · rw [heq]
    exact comments_nodup_dropDupKeepLast _
  · intro c
    rw [heq]
    constructor
    · exact comment_mem_dropDupKeepLast
    · rintro ⟨r, hr, hrc⟩
      exact ⟨r, mem_of_mem_dropDupKeepLast hr, hrc⟩
  · intro r hr
    rw [heq] at hr
    exact getLast?_filter_dropDupKeepLast hr
  · rintro r hr ⟨f, hf, hfc⟩
    rw [heq] at hr
    have hlast := getLast?_filter_dropDupKeepLast hr
    rw [List.filter_append] at hlast
    have hmemf : fbToRow f ∈ (fbs.map fbToRow).filter (fun t => t.comment == r.comment) := by
      rw [List.mem_filter]
      refine ⟨List.mem_map.mpr ⟨f, hf, rfl⟩, ?_⟩
      rw [beq_iff_eq]
      exact hfc
    have hne : (fbs.map fbToRow).filter (fun t => t.comment == r.comment) ≠ [] :=
      List.ne_nil_of_mem hmemf
    rw [List.getLast?_append_of_ne_nil _ hne] at hlast
    have hrmem := mem_of_getLast?_eq_some hlast
    obtain ⟨f2, hf2, hf2r⟩ := List.mem_map.mp (List.mem_filter.mp hrmem).1
    exact ⟨f2, hf2, hf2r⟩

/-- Witness for C4 on `exBase` (two rows, one sharing the comment
"gacor parah" with `exUnusedFb`): the shared comment is kept exactly
once, represented by the feedback row with its label. -/
theorem c4_witness :
    get_training_data exBase [exUnusedFb] =
      dropDupKeepLast (exBase ++ [exUnusedFb].map fbToRow) ∧
    (∃ f ∈ [exUnusedFb], fbToRow f =
      ({ comment := "gacor parah", label := 1 } : DataRow)) ∧
    get_training_data exBase [exUnusedFb] =
      [{ comment := "halo bang", label := 0 }, { comment := "gacor parah", label := 1 }] := by
  refine ⟨(c4_training_data_union_dedup exBase [exUnusedFb]).1, ?_, by decide⟩
  exact (c4_training_data_union_dedup exBase [exUnusedFb]).2.2.2.2
    { comment := "gacor parah", label := 1 } (by decide) ⟨exUnusedFb, by decide, by decide⟩

theorem countP_deactivateActive (now : Int) (vs : List ModelVersionRow) :
    (deactivateActive now vs).countP (fun v => v.is_active) = 0 := by
  induction vs with
  | nil => rfl
  | cons a t ih =>
    unfold deactivateActive at ih ⊢
    simp only [List.map_cons, List.countP_cons]
    by_cases h : a.is_active
    · rw [if_pos h]
      simp [ih]
    · rw [if_neg h]
      simp only [ih]
      simp [Bool.of_not_eq_true h]

/-- C2 counterexample: with one active version and one unused feedback
row, a failure at the feedback-marking step of `deploy_model` (after
the artifact write and the registry commit) returns an error yet
leaves the registry already flipped — the new version is active while
the previously-unused feedback is still unmarked — contradicting the
claim that the registry and feedback state are left unchanged on any
failure after the artifact write. -/
theorem c2_deploy_atomicity_counterexample :
    (deploy_model exRState 5 "v1" "models/model_v1.joblib" exMetrics
        (some DeployStep.markFeedback)).1 = .error .dbError ∧
    (deploy_model exRState 5 "v1" "models/model_v1.joblib" exMetrics
        (some DeployStep.markFeedback)).2.versions ≠ exRState.versions ∧
    (∃ v ∈ (deploy_model exRState 5 "v1" "models/model_v1.joblib" exMetrics
        (some DeployStep.markFeedback)).2.versions, v.is_active = true ∧ v.id = 1) ∧
    (deploy_model exRState 5 "v1" "models/model_v1.joblib" exMetrics
        (some DeployStep.markFeedback)).2.feedbacks = exRState.feedbacks ∧
    (∃ f ∈ (deploy_model exRState 5 "v1" "models/model_v1.joblib" exMetrics
        (some DeployStep.markFeedback)).2.feedbacks, f.used_in_training = false) := by
  exact ⟨rfl, by decide, by decide, rfl, by decide⟩

/-- C2 (amended): `deploy_model` is two transactions, not one.  The
registry flip (deactivate-old plus insert-new-active) commits first;
the feedback marking commits second.  A failure at or before the
registry commit leaves registry and feedback unchanged; a failure at
the feedback-marking step leaves the new version active with feedback
unmarked.  Across every failure point, no state with two active
versions arises (starting from at most one), and feedback is never
marked without the new version deployed and active. -/
theorem c2_deploy_commit_granularity (s : RState) (now : Int) (ver path : String)
    (m : ModelMetrics) :
    (deploy_model s now ver path m (some DeployStep.artifactWrite) =
       (.error .deploymentError, s)) ∧
    (deploy_model s now ver path m (some DeployStep.commitRegistry) =
       (.error .dbError, { s with files := path :: s.files })) ∧
    ((deploy_model s now ver path m (some DeployStep.markFeedback)).1 = .error .dbError ∧
     (deploy_model s now ver path m (some DeployStep.markFeedback)).2.feedbacks =
       s.feedbacks ∧
     (deploy_model s now ver path m (some DeployStep.markFeedback)).2.versions.countP
        (fun v => v.is_active) = 1) ∧
    (∀ failAt : Option DeployStep, s.versions.countP (fun v => v.is_active) ≤ 1 →
       (deploy_model s now ver path m failAt).2.versions.countP
          (fun v => v.is_active) ≤ 1) ∧
    (∀ failAt : Option DeployStep,
       (deploy_model s now ver path m failAt).2.feedbacks ≠ s.feedbacks →
       (deploy_model s now ver path m failAt).1 = .ok (newVersionRow s now ver path m) ∧
       newVersionRow s now ver path m ∈
         (deploy_model s now ver path m failAt).2.versions) := by
  have hcount : (deactivateActive now s.versions ++
      [newVersionRow s now ver path m]).countP (fun v => v.is_active) = 1 := by
    rw [List.countP_append, countP_deactivateActive]
    rfl
  refine ⟨rfl, rfl, ⟨rfl, rfl, hcount⟩, ?_, ?_⟩
  · intro failAt hle
    rcases failAt with _ | step
    · rw [show (deploy_model s now ver path m none).2.versions =
          deactivateActive now s.versions ++ [newVersionRow s now ver path m] from rfl,
        hcount]
    · cases step
      · exact hle
      · exact hle
      · rw [show (deploy_model s now ver path m (some DeployStep.markFeedback)).2.versions =
            deactivateActive now s.versions ++ [newVersionRow s now ver path m] from rfl,
          hcount]
  · intro failAt hne
    rcases failAt with _ | step
    · refine ⟨rfl, ?_⟩
      exact List.mem_append_right _ (List.mem_singleton.mpr rfl)
    · cases step
      · exact absurd rfl hne
      · exact absurd rfl hne
      · exact absurd rfl hne

/-- Witness for C2 (amended) on `exRState`: starting from one active
version, no failure point yields more than one active version, and the
successful run that does mark feedback has the new version deployed. -/
theorem c2_witness :
    ((deploy_model exRState 5 "v1" "models/model_v1.joblib" exMetrics
        none).2.versions.countP (fun v => v.is_active) ≤ 1) ∧
    ((deploy_model exRState 5 "v1" "models/model_v1.joblib" exMetrics none).1 =
       .ok (newVersionRow exRState 5 "v1" "models/model_v1.joblib" exMetrics) ∧
     newVersionRow exRState 5 "v1" "models/model_v1.joblib" exMetrics ∈
       (deploy_model exRState 5 "v1" "models/model_v1.joblib" exMetrics
          none).2.versions) := by
  refine ⟨?_, ?_⟩
  · exact (c2_deploy_commit_granularity exRState 5 "v1" "models/model_v1.joblib"
      exMetrics).2.2.2.1 none (by decide)
  · exact (c2_deploy_commit_granularity exRState 5 "v1" "models/model_v1.joblib"
      exMetrics).2.2.2.2 none (by decide)

/-- C3: after a successful `deploy_model` on any registry state,
exactly one version is active (the new one, created under the fresh
id); every feedback row that was unmarked before the call is now
marked used with `model_version_id` the new version's id, rows already
marked are untouched; and every previously active version is now
inactive with `deactivated_at = now`. -/
theorem c3_deploy_success_invariants (s : RState) (now : Int) (ver path : String)
    (m : ModelMetrics) :
    ((deploy_model s now ver path m none).2.versions.countP
        (fun v => v.is_active) = 1) ∧
    ((deploy_model s now ver path m none).1 = .ok (newVersionRow s now ver path m) ∧
     (newVersionRow s now ver path m).id = s.next_version_id ∧
     (newVersionRow s now ver path m).is_active = true ∧
     (newVersionRow s now ver path m).deactivated_at = none ∧
     newVersionRow s now ver path m ∈ (deploy_model s now ver path m none).2.versions) ∧
    (∀ f ∈ s.feedbacks, f.used_in_training = false →
       ({ f with used_in_training := true,
                 model_version_id := some s.next_version_id } : ValidationFeedback)
          ∈ (deploy_model s now ver path m none).2.feedbacks) ∧
    (∀ f ∈ s.feedbacks, f.used_in_training = true →
       f ∈ (deploy_model s now ver path m none).2.feedbacks) ∧
    (∀ v ∈ s.versions, v.is_active = true →
       ({ v with is_active := false, deactivated_at := some now } : ModelVersionRow)
          ∈ (deploy_model s now ver path m none).2.versions) := by
  refine ⟨?_, ⟨rfl, rfl, rfl, rfl, ?_⟩, ?_, ?_, ?_⟩
  · rw [show (deploy_model s now ver path m none).2.versions =
        deactivateActive now s.versions ++ [newVersionRow s now ver path m] from rfl,
      List.countP_append, countP_deactivateActive]
    rfl
  · exact List.mem_append_right _ (List.mem_singleton.mpr rfl)
  · intro f hf hun
    show _ ∈ markUnusedFeedback s.next_version_id s.feedbacks
    unfold markUnusedFeedback
    refine List.mem_map.mpr ⟨f, hf, ?_⟩
    rw [hun]
    rfl
  · intro f hf hused
    show _ ∈ markUnusedFeedback s.next_version_id s.feedbacks
    unfold markUnusedFeedback
    refine List.mem_map.mpr ⟨f, hf, ?_⟩
    rw [hused]
    rfl
  · intro v hv hact
    refine List.mem_append_left _ ?_
    unfold deactivateActive
    refine List.mem_map.mpr ⟨v, hv, ?_⟩
    rw [hact]
    rfl

/-- Witness for C3: deploying on `exRState` leaves exactly one active
version, marks `exUnusedFb` as used by version id 1, and deactivates
`exActiveVersion` at the deploy time. -/
theorem c3_witness :
    ((deploy_model exRState 5 "v1" "models/model_v1.joblib" exMetrics
        none).2.versions.countP (fun v => v.is_active) = 1) ∧
    ({ exUnusedFb with used_in_training := true,
                       model_version_id := some 1 } : ValidationFeedback)
        ∈ (deploy_model exRState 5 "v1" "models/model_v1.joblib" exMetrics
            none).2.feedbacks ∧
    ({ exActiveVersion with is_active := false,
                            deactivated_at := some 5 } : ModelVersionRow)
        ∈ (deploy_model exRState 5 "v1" "models/model_v1.joblib" exMetrics
            none).2.versions := by
  have h := c3_deploy_success_invariants exRState 5 "v1" "models/model_v1.joblib" exMetrics
  exact ⟨h.1, h.2.2.1 exUnusedFb (by decide) (by decide),
    h.2.2.2.2 exActiveVersion (by decide) (by decide)⟩

/-- C6: `rollback_model` fails `notFound` when the target id does not
exist or its artifact file is missing, leaving the whole state
unchanged; on success it returns the target activated with
`deactivated_at` cleared, the target's activated row is in the
registry, every other previously active version is deactivated with
`deactivated_at = now`, and the feedback table (and the file store)
is untouched. -/
theorem c6_rollback_spec (s : RState) (now : Int) (vid : Nat) :
    (s.versions.find? (fun v => v.id == vid) = none →
       rollback_model s now vid = (.error .notFound, s)) ∧
    (∀ t, s.versions.find? (fun v => v.id == vid) = some t →
       (s.files.contains t.file_path = false →
          rollback_model s now vid = (.error .notFound, s)) ∧
       (s.files.contains t.file_path = true →
          (rollback_model s now vid).1 =
            .ok { t with is_active := true, activated_at := some now,
                         deactivated_at := none } ∧
          (rollback_model s now vid).2.feedbacks = s.feedbacks ∧
          (rollback_model s now vid).2.files = s.files ∧
          ({ t with is_active := true, activated_at := some now,
                    deactivated_at := none } : ModelVersionRow)
             ∈ (rollback_model s now vid).2.versions ∧
          (∀ v ∈ s.versions, v.is_active = true → v.id ≠ vid →
             ({ v with is_active := false,
                       deactivated_at := some now } : ModelVersionRow)
                ∈ (rollback_model s now vid).2.versions))) := by
  constructor
  · intro hfind
    unfold rollback_model
    rw [hfind]
  · intro t hfind
    constructor
    · intro hc
      unfold rollback_model
      simp only [hfind]
      rw [hc]
      rfl
    · intro hc
      have hrb : rollback_model s now vid =
          (.ok { t with is_active := true, activated_at := some now,
                        deactivated_at := none },
           { s with versions := (deactivateActive now s.versions).map (fun v =>
               if v.id == vid then
                 { v with is_active := true, activated_at := some now,
                          deactivated_at := none }
               else v) }) := by
        unfold rollback_model
        simp only [hfind]
        rw [hc]
        rfl
      rw [hrb]
      have htid0 := List.find?_some hfind
      have htid : (t.id == vid) = true := htid0
      refine ⟨rfl, rfl, rfl, ?_, ?_⟩
      · unfold deactivateActive
        rw [List.map_map]
        refine List.mem_map.mpr ⟨t, List.mem_of_find?_eq_some hfind, ?_⟩
        by_cases ha : t.is_active
        · simp only [Function.comp_apply, if_pos ha, htid]
          rfl
        · simp only [Function.comp_apply, if_neg ha, htid]
          rfl
      · intro v hv hact hneq
        unfold deactivateActive
        rw [List.map_map]
        refine List.mem_map.mpr ⟨v, hv, ?_⟩
        have hvid : (v.id == vid) = false := by
          simpa using hneq
        simp only [Function.comp_apply, if_pos hact, hvid]
        rfl

/-- Witness for C6 on `exRState2`: rolling back to version id 1
activates `exOldVersion` clearing its `deactivated_at`, deactivates
`exActiveVersion`, keeps the feedback table, and rolling back to a
missing id 99 fails `notFound` with the state unchanged. -/
theorem c6_witness :
    (rollback_model exRState2 9 1).1 =
      .ok { exOldVersion with is_active := true, activated_at := some 9,
                              deactivated_at := none } ∧
    (rollback_model exRState2 9 1).2.feedbacks = exRState2.feedbacks ∧
    ({ exActiveVersion with is_active := false,
                            deactivated_at := some 9 } : ModelVersionRow)
        ∈ (rollback_model exRState2 9 1).2.versions ∧
    rollback_model exRState2 9 99 = (.error .notFound, exRState2) := by
  have h := ((c6_rollback_spec exRState2 9 1).2 exOldVersion rfl).2 (by decide)
  refine ⟨h.1, h.2.1, ?_, ?_⟩
  · exact h.2.2.2.2 exActiveVersion (by decide) (by decide) (by decide)
  · exact (c6_rollback_spec exRState2 9 99).1 (by decide)

/-- C9 counterexample: on a one-row dataset (far below the
minimum-sample floor of 100), `train_and_evaluate` does not fail with
`insufficientData`; it returns metrics normally and its trace contains
the fit step, so the floor check claimed for `train_and_evaluate`
does not exist there. -/
theorem c9_train_no_floor_check_counterexample :
    exTinyData.length < MIN_TRAINING_SAMPLES ∧
    (train_and_evaluate exEvalFn exTinyData 0).2 = .ok exTinyMetrics ∧
    TrainStep.fitModel ∈ (train_and_evaluate exEvalFn exTinyData 0).1 ∧
    (train_and_evaluate exEvalFn exTinyData 0).2 ≠
      .error RErr.insufficientData := by
  refine ⟨by decide, rfl, by decide, ?_⟩
  intro hcontra
  rw [show (train_and_evaluate exEvalFn exTinyData 0).2 = .ok exTinyMetrics from rfl]
    at hcontra
  cases hcontra

/-- C9 (amended): the minimum-sample floor check lives in
`trigger_retraining`, which fails with `insufficientData` before any
training work begins — the step trace is empty (no split, no fit) and
the state is unchanged — whenever the assembled dataset is smaller
than `min_training_samples`.  `train_and_evaluate` itself performs no
such check. -/
theorem c9_trigger_floor_amended (evalFn : List DataRow → Rat × Rat × Rat × Rat)
    (s : RState) (now : Int) (base : List DataRow) (ver path : String)
    (failAt : Option DeployStep)
    (h : (get_training_data base s.feedbacks).length < MIN_TRAINING_SAMPLES) :
    trigger_retraining evalFn s now base ver path failAt =
      ([], (.error .insufficientData, s)) := by
  unfold trigger_retraining
  rw [if_pos h]

/-- Witness for C9 (amended): with an empty base corpus and a single
feedback row the assembled dataset has one row, so the trigger skips
with `insufficientData`, an empty trace and an unchanged state. -/
theorem c9_witness :
    (get_training_data [] exRState.feedbacks).length < MIN_TRAINING_SAMPLES ∧
    trigger_retraining exEvalFn exRState 5 [] "v1" "models/model_v1.joblib" none =
      ([], (.error .insufficientData, exRState)) := by
  exact ⟨by decide,
    c9_trigger_floor_amended exEvalFn exRState 5 [] "v1" "models/model_v1.joblib"
      none (by decide)⟩

end AntiJudol
